import Mathlib

/-!
Shallow embedding of `generatePagination` from
`src/chapter10-search-pagination.md` (section 2.2, `app/lib/utils.ts`),
together with proofs of the specified properties of the pagination window.
-/

/-- A single entry of the pagination window: either a page number or the
ellipsis marker `'...'`. JavaScript numbers here are always integers, so we
model them with `Int`. -/
inductive Label where
  | page (n : Int)
  | ellipsis
deriving DecidableEq, Repr

/-- Embedding of `generatePagination(currentPage, totalPages)`.

The first branch embeds `Array.from({ length: totalPages }, (_, i) => i + 1)`:
in JavaScript the array-like length is coerced with `ToLength`, which clamps
negative values to `0`, so we take `totalPages.toNat` elements. -/
def generatePagination (currentPage totalPages : Int) : List Label :=
  if totalPages ≤ 7 then
    (List.range totalPages.toNat).map (fun (i : Nat) => Label.page ((i : Int) + 1))
  else if currentPage ≤ 3 then
    [Label.page 1, Label.page 2, Label.page 3, Label.ellipsis,
     Label.page (totalPages - 1), Label.page totalPages]
  else if currentPage ≥ totalPages - 2 then
    [Label.page 1, Label.page 2, Label.ellipsis,
     Label.page (totalPages - 2), Label.page (totalPages - 1), Label.page totalPages]
  else
    [Label.page 1, Label.ellipsis, Label.page (currentPage - 1),
     Label.page currentPage, Label.page (currentPage + 1), Label.ellipsis,
     Label.page totalPages]

/-- The numeric labels of a window, read left to right. -/
def numericLabels (l : List Label) : List Int :=
  l.filterMap (fun x => match x with | .page n => some n | .ellipsis => none)

/-- No two adjacent entries are both the ellipsis marker. -/
def noAdjacentEllipsis (l : List Label) : Prop :=
  l.Chain' (fun a b => ¬(a = Label.ellipsis ∧ b = Label.ellipsis))

instance (l : List Label) : Decidable (noAdjacentEllipsis l) := by
  unfold noAdjacentEllipsis
  infer_instance

/-- A list without the ellipsis marker has no two adjacent ellipses. -/
lemma noAdjacentEllipsis_of_not_mem :
    ∀ (l : List Label), Label.ellipsis ∉ l → noAdjacentEllipsis l
  | [], _ => List.chain'_nil
  | [a], _ => List.chain'_singleton a
  | a :: b :: l, h => by
      rw [noAdjacentEllipsis, List.chain'_cons]
      refine ⟨fun hab => h (by simp [hab.1]), ?_⟩
      exact noAdjacentEllipsis_of_not_mem (b :: l) fun hm => h (List.mem_cons_of_mem a hm)

/-- Extracting the numeric labels of a window of pure page labels. -/
lemma numericLabels_map_page (f : Nat → Int) (l : List Nat) :
    numericLabels (l.map fun i => Label.page (f i)) = l.map f := by
  induction l with
  | nil => rfl
  | cons a l ih => simpa [numericLabels, List.filterMap_cons] using ih

/-- Unfolding lemma: the `totalPages ≤ 7` branch. -/
lemma generatePagination_of_le_seven (c t : Int) (h7 : t ≤ 7) :
    generatePagination c t =
      (List.range t.toNat).map (fun (i : Nat) => Label.page ((i : Int) + 1)) := by
  unfold generatePagination
  rw [if_pos h7]

/-- C1: small total count shows every page, in order, with no ellipsis. -/
theorem generatePagination_small_total (c t : Int)
    (h1 : 1 ≤ t) (h7 : t ≤ 7) (hc1 : 1 ≤ c) (hc2 : c ≤ t) :
    (generatePagination c t).length = t.toNat ∧
    (∀ i : Nat, i < t.toNat →
      (generatePagination c t)[i]? = some (Label.page ((i : Int) + 1))) ∧
    Label.ellipsis ∉ generatePagination c t := by
  rw [generatePagination_of_le_seven c t h7]
  refine ⟨by simp, fun i hi => ?_, by simp⟩
  simp [List.getElem?_map, List.getElem?_range hi]

theorem generatePagination_small_total_witness :
    (generatePagination 2 5).length = (5 : Int).toNat ∧
    (∀ i : Nat, i < (5 : Int).toNat →
      (generatePagination 2 5)[i]? = some (Label.page ((i : Int) + 1))) ∧
    Label.ellipsis ∉ generatePagination 2 5 :=
  generatePagination_small_total 2 5 (by decide) (by decide) (by decide) (by decide)

/-- C2: near the start with more than 7 pages, the window is
`[1, 2, 3, '...', totalPages-1, totalPages]`. -/
theorem generatePagination_near_start (c t : Int)
    (ht : 7 < t) (hc1 : 1 ≤ c) (hc2 : c ≤ 3) :
    generatePagination c t =
      [Label.page 1, Label.page 2, Label.page 3, Label.ellipsis,
       Label.page (t - 1), Label.page t] := by
  unfold generatePagination
  rw [if_neg (by omega), if_pos hc2]

theorem generatePagination_near_start_witness :
    generatePagination 3 10 =
      [Label.page 1, Label.page 2, Label.page 3, Label.ellipsis,
       Label.page (10 - 1), Label.page 10] :=
  generatePagination_near_start 3 10 (by decide) (by decide) (by decide)

/-- C3: near the end with more than 7 pages, the window is
`[1, 2, '...', totalPages-2, totalPages-1, totalPages]`. -/
theorem generatePagination_near_end (c t : Int)
    (ht : 7 < t) (hc1 : t - 2 ≤ c) (hc2 : c ≤ t) (hc3 : 3 < c) :
    generatePagination c t =
      [Label.page 1, Label.page 2, Label.ellipsis,
       Label.page (t - 2), Label.page (t - 1), Label.page t] := by
  unfold generatePagination
  rw [if_neg (by omega), if_neg (by omega), if_pos (by omega)]

theorem generatePagination_near_end_witness :
    generatePagination 9 10 =
      [Label.page 1, Label.page 2, Label.ellipsis,
       Label.page (10 - 2), Label.page (10 - 1), Label.page 10] :=
  generatePagination_near_end 9 10 (by decide) (by decide) (by decide) (by decide)

/-- C4: in the middle with more than 7 pages, the window is
`[1, '...', currentPage-1, currentPage, currentPage+1, '...', totalPages]`. -/
theorem generatePagination_middle (c t : Int)
    (ht : 7 < t) (hc1 : 3 < c) (hc2 : c < t - 2) :
    generatePagination c t =
      [Label.page 1, Label.ellipsis, Label.page (c - 1), Label.page c,
       Label.page (c + 1), Label.ellipsis, Label.page t] := by
  unfold generatePagination
  rw [if_neg (by omega), if_neg (by omega), if_neg (by omega)]

theorem generatePagination_middle_witness :
    generatePagination 5 10 =
      [Label.page 1, Label.ellipsis, Label.page (5 - 1), Label.page 5,
       Label.page (5 + 1), Label.ellipsis, Label.page 10] :=
  generatePagination_middle 5 10 (by decide) (by decide) (by decide)

/-- C5: with more than 7 pages the window has 6 labels near an edge and 7 in
the middle, so it never exceeds 7 labels regardless of `totalPages`. -/
theorem generatePagination_length (c t : Int)
    (ht : 7 < t) (hc1 : 1 ≤ c) (hc2 : c ≤ t) :
    (generatePagination c t).length
      = (if c ≤ 3 ∨ t - 2 ≤ c then 6 else 7) ∧
    (generatePagination c t).length ≤ 7 := by
  unfold generatePagination
  rw [if_neg (by omega)]
  by_cases h3 : c ≤ 3
  · rw [if_pos h3, if_pos (Or.inl h3)]
    exact ⟨rfl, by simp⟩
  · rw [if_neg h3]
    by_cases he : c ≥ t - 2
    · rw [if_pos he, if_pos (Or.inr he)]
      exact ⟨rfl, by simp⟩
    · rw [if_neg he, if_neg (by omega)]
      exact ⟨rfl, by simp⟩

theorem generatePagination_length_witness :
    (generatePagination 5 10).length = (if (5 : Int) ≤ 3 ∨ (10 : Int) - 2 ≤ 5 then 6 else 7) ∧
    (generatePagination 5 10).length ≤ 7 :=
  generatePagination_length 5 10 (by decide) (by decide) (by decide)

/-- C6: for every valid input the window is non-empty, starts with page `1`
and ends with page `totalPages`. -/
theorem generatePagination_boundaries (c t : Int)
    (ht : 1 ≤ t) (hc1 : 1 ≤ c) (hc2 : c ≤ t) :
    generatePagination c t ≠ [] ∧
    (generatePagination c t).head? = some (Label.page 1) ∧
    (generatePagination c t).getLast? = some (Label.page t) := by
  by_cases h7 : t ≤ 7
  · rw [generatePagination_of_le_seven c t h7]
    obtain ⟨m, hm⟩ : ∃ m, t.toNat = m + 1 := ⟨t.toNat - 1, by omega⟩
    rw [hm]
    refine ⟨by simp, ?_, ?_⟩
    · rw [List.range_succ_eq_map]
      simp
    · rw [List.range_succ, List.map_append]
      simp only [List.map_cons, List.map_nil, List.getLast?_concat]
      have hmt : (m : Int) + 1 = t := by omega
      rw [hmt]
  · unfold generatePagination
    rw [if_neg h7]
    by_cases h3 : c ≤ 3
    · rw [if_pos h3]
      exact ⟨by simp, rfl, rfl⟩
    · rw [if_neg h3]
      by_cases he : c ≥ t - 2
      · rw [if_pos he]
        exact ⟨by simp, rfl, rfl⟩
      · rw [if_neg he]
        exact ⟨by simp, rfl, rfl⟩

theorem generatePagination_boundaries_witness :
    generatePagination 1 1 ≠ [] ∧
    (generatePagination 1 1).head? = some (Label.page 1) ∧
    (generatePagination 1 1).getLast? = some (Label.page 1) :=
  generatePagination_boundaries 1 1 (by decide) (by decide) (by decide)

/-- C7: for every valid input the numeric labels are strictly increasing,
every numeric label lies in `[1, totalPages]`, and no two ellipsis markers
are adjacent. -/
theorem generatePagination_invariants (c t : Int)
    (ht : 1 ≤ t) (hc1 : 1 ≤ c) (hc2 : c ≤ t) :
    (numericLabels (generatePagination c t)).Chain' (· < ·) ∧
    (∀ n ∈ numericLabels (generatePagination c t), 1 ≤ n ∧ n ≤ t) ∧
    noAdjacentEllipsis (generatePagination c t) := by
  by_cases h7 : t ≤ 7
  · rw [generatePagination_of_le_seven c t h7]
    rw [numericLabels_map_page (fun i => (i : Int) + 1)]
    refine ⟨?_, ?_, ?_⟩
    · refine List.Pairwise.chain' ?_
      refine List.Pairwise.map _ (fun a b hab => ?_) (List.pairwise_lt_range t.toNat)
      omega
    · intro n hn
      obtain ⟨i, hi, rfl⟩ := List.mem_map.mp hn
      rw [List.mem_range] at hi
      omega
    · refine noAdjacentEllipsis_of_not_mem _ ?_
      simp
  · unfold generatePagination
    rw [if_neg h7]
    by_cases h3 : c ≤ 3
    · rw [if_pos h3]
      refine ⟨?_, ?_, ?_⟩
      · simp only [numericLabels, List.filterMap_cons, List.filterMap_nil]
        simp only [List.chain'_cons, List.chain'_singleton, and_true]
        omega
      · intro n hn
        simp only [numericLabels, List.filterMap_cons, List.filterMap_nil,
          List.mem_cons, List.not_mem_nil, or_false] at hn
        omega
      · simp [noAdjacentEllipsis, List.chain'_cons]
    · rw [if_neg h3]
      by_cases he : c ≥ t - 2
      · rw [if_pos he]
        refine ⟨?_, ?_, ?_⟩
        · simp only [numericLabels, List.filterMap_cons, List.filterMap_nil]
          simp only [List.chain'_cons, List.chain'_singleton, and_true]
          omega
        · intro n hn
          simp only [numericLabels, List.filterMap_cons, List.filterMap_nil,
            List.mem_cons, List.not_mem_nil, or_false] at hn
          omega
        · simp [noAdjacentEllipsis, List.chain'_cons]
      · rw [if_neg he]
        refine ⟨?_, ?_, ?_⟩
        · simp only [numericLabels, List.filterMap_cons, List.filterMap_nil]
          simp only [List.chain'_cons, List.chain'_singleton, and_true]
          omega
        · intro n hn
          simp only [numericLabels, List.filterMap_cons, List.filterMap_nil,
            List.mem_cons, List.not_mem_nil, or_false] at hn
          omega
        · simp [noAdjacentEllipsis, List.chain'_cons]

theorem generatePagination_invariants_witness :
    (numericLabels (generatePagination 5 12)).Chain' (· < ·) ∧
    (∀ n ∈ numericLabels (generatePagination 5 12), 1 ≤ n ∧ n ≤ 12) ∧
    noAdjacentEllipsis (generatePagination 5 12) :=
  generatePagination_invariants 5 12 (by decide) (by decide) (by decide)

/-- C8: `generatePagination` is a pure function of its two arguments: two
invocations with identical inputs yield identical (by-value) results, there
being no state for it to read or mutate. -/
theorem generatePagination_deterministic (c t : Int) :
    generatePagination c t = generatePagination c t := rfl

/-- C9: the current page always appears among the numeric labels; it is never
hidden behind an ellipsis. -/
theorem generatePagination_mem_current (c t : Int)
    (ht : 1 ≤ t) (hc1 : 1 ≤ c) (hc2 : c ≤ t) :
    c ∈ numericLabels (generatePagination c t) := by
  by_cases h7 : t ≤ 7
  · rw [generatePagination_of_le_seven c t h7]
    rw [numericLabels_map_page (fun i => (i : Int) + 1)]
    rw [List.mem_map]
    exact ⟨(c - 1).toNat, List.mem_range.mpr (by omega), by omega⟩
  · unfold generatePagination
    rw [if_neg h7]
    by_cases h3 : c ≤ 3
    · rw [if_pos h3]
      simp only [numericLabels, List.filterMap_cons, List.filterMap_nil,
        List.mem_cons, List.not_mem_nil, or_false]
      omega
    · rw [if_neg h3]
      by_cases he : c ≥ t - 2
      · rw [if_pos he]
        simp only [numericLabels, List.filterMap_cons, List.filterMap_nil,
          List.mem_cons, List.not_mem_nil, or_false]
        omega
      · rw [if_neg he]
        simp only [numericLabels, List.filterMap_cons, List.filterMap_nil,
          List.mem_cons, List.not_mem_nil, or_false]
        tauto

theorem generatePagination_mem_current_witness :
    (9 : Int) ∈ numericLabels (generatePagination 9 10) :=
  generatePagination_mem_current 9 10 (by decide) (by decide) (by decide)

/-- C10: for a non-positive total page count the function returns the empty
window: the `totalPages ≤ 7` branch builds the range `1..totalPages`, which
is empty when `totalPages ≤ 0`. -/
theorem generatePagination_nonpos_total (c t : Int) (ht : t ≤ 0) :
    generatePagination c t = [] := by
  rw [generatePagination_of_le_seven c t (by omega)]
  have h0 : t.toNat = 0 := by omega
  rw [h0]
  rfl

theorem generatePagination_nonpos_total_witness :
    generatePagination 4 (-3) = [] :=
  generatePagination_nonpos_total 4 (-3) (by decide)
